import Mathlib

/-!
Verification of the BigQuery-to-PostgreSQL partition transfer pipeline.

The development shallowly embeds the pipeline's pure logic and its
effectful control flow (GCS object manipulation, BigQuery queries,
PostgreSQL bulk writes) in Lean.  External services are modelled by
explicit oracles (`GcsEnv`, `ExportEnv`): each oracle field records the
outcome an external call would have, and the embedded control flow
branches on those outcomes exactly as the Python code branches on
caught exceptions and returned booleans.
-/

namespace BqToPg

/-! ### Python string primitives

The scripts use `str.split(sep)`, `sep.join(parts)`, `os.path.splitext`,
`str.replace(old, '')`, `str.startswith`, `str.endswith` and
`str.lower`.  We embed each with the same semantics on `List Char`.
-/

/-- Python `s.split(sep)` for a one-character separator: keeps empty
segments, `''.split(sep) == ['']`. -/
def pySplit (sep : Char) : List Char → List (List Char)
  | [] => [[]]
  | c :: cs =>
      let r := pySplit sep cs
      if c = sep then [] :: r
      else
        match r with
        | [] => [[c]]
        | t :: ts => (c :: t) :: ts

/-- Python `sep.join(parts)` (for a general separator string). -/
def joinWith (sep : List Char) : List (List Char) → List Char
  | [] => []
  | [x] => x
  | x :: xs => x ++ sep ++ joinWith sep xs

/-- Split a list at the last occurrence of `c`: returns the part before
and the part after that occurrence (neither includes `c` itself), or
`none` when `c` does not occur. -/
def lastSplit (c : Char) (l : List Char) : Option (List Char × List Char) :=
  let p := l.reverse.span (fun x => !(x = c : Bool))
  match p.2 with
  | [] => none
  | _ :: beforeRev => some (beforeRev.reverse, p.1.reverse)

/-- Python `os.path.splitext` (posix): the extension starts at the last
dot of the basename, unless every character of the basename before that
dot is itself a dot (leading-dot files have no extension). -/
def splitext (p : List Char) : List Char × List Char :=
  let rb :=
    match lastSplit '/' p with
    | none => (([] : List Char), p)
    | some (before, after) => (before ++ ['/'], after)
  let dots := rb.2.takeWhile (fun x => (x = '.' : Bool))
  let rest := rb.2.dropWhile (fun x => (x = '.' : Bool))
  match lastSplit '.' rest with
  | none => (p, [])
  | some (stem, ext) => (rb.1 ++ dots ++ stem, '.' :: ext)

/-- Python `s.lower()` (ASCII range, which is all the pipeline uses). -/
def pyLower (s : String) : String := ⟨s.data.map Char.toLower⟩

/-- Python `s.replace(old, '')` (delete all non-overlapping occurrences,
scanning left to right).  Structural recursion on explicit fuel so that
the kernel can evaluate it; `fuel ≥ l.length` always suffices. -/
def removeOccGo (pat : List Char) : Nat → List Char → List Char
  | _, [] => []
  | 0, l => l
  | fuel + 1, c :: cs =>
      if !pat.isEmpty && pat.isPrefixOf (c :: cs) then
        removeOccGo pat fuel (cs.drop (pat.length - 1))
      else c :: removeOccGo pat fuel cs

/-- Python `s.replace(old, '')` on strings. -/
def pyReplaceDel (s old : String) : String :=
  ⟨removeOccGo old.data s.data.length s.data⟩

/-- Python `s.startswith(pre)`. -/
def pyStartswith (s pre : String) : Bool := pre.data.isPrefixOf s.data

/-- Python `s.endswith(suf)`. -/
def pyEndswith (s suf : String) : Bool := suf.data.isSuffixOf s.data

/-- Python `yesterday.replace('-', '')`: the compact `YYYYMMDD` date key
obtained from a `YYYY-MM-DD` date string. -/
def dashless (s : String) : String := ⟨s.data.filter (fun c => !(c = '-' : Bool))⟩

/-! ### load_partitions_to_pg.py: table-name derivation -/

/-- Embeds `extract_table_name_from_filename` (load_partitions_to_pg.py,
lines 99-116): strip the extension with `os.path.splitext`, split the
stem on `'_'`, join the first two parts with `'_'`. -/
def extract_table_name_from_filename (file_name : String) : String :=
  let table := (splitext file_name.data).1
  let table_name_parts := pySplit '_' table
  ⟨joinWith ['_'] (table_name_parts.take 2)⟩

/-! ### GCS object store model

The bucket is the list of blob names currently present.  The scripts
catch every storage exception at the call site and branch on a returned
boolean, so each storage primitive is parameterised by an oracle
(`GcsEnv`) recording whether the underlying API call succeeds; the
embedded control flow mirrors the `try/except` structure of the source.
Each primitive also emits a trace of the API calls it attempted,
tagged with their outcome.
-/

/-- One attempted GCS API call, tagged with its outcome. -/
inductive GcsOp where
  | copyBlob (src dst : String) (ok : Bool)
  | deleteBlob (name : String) (ok : Bool)
  | loadAttempt (file : String) (ok : Bool)
deriving DecidableEq, Repr

/-- Outcome oracle for the external calls made by the loader script:
whether `load_partition_to_postgresql` succeeds for a given staged file
name, and whether `blob.delete` / `bucket.copy_blob` succeed for a given
source blob name.  (Each blob sees at most one delete call and one copy
call per run, so keying outcomes by name loses no generality.) -/
structure GcsEnv where
  loadOk : String → Bool
  deleteOk : String → Bool
  copyOk : String → Bool

/-- The `processing_zone/` blob name of a staged file
(`f'processing_zone/{file_name}'` in the source). -/
def pzName (f : String) : String := "processing_zone/" ++ f

/-- The `unprocess_zone/` blob name of a staged file
(`f'unprocess_zone/{file_name}'` in the source). -/
def uzName (f : String) : String := "unprocess_zone/" ++ f

/-- Embeds `move_file_in_gcs` (load_partitions_to_pg.py, lines 44-72):
`bucket.copy_blob` to the destination, then `source_blob.delete`; any
exception is caught and yields `False`.  If the copy throws, the delete
is never attempted and the bucket is unchanged; if the copy succeeds and
the delete throws, the copy persists (the object is then in both
zones).  Returns (bucket after the call, trace of attempted API calls,
returned boolean). -/
def move_file_in_gcs (env : GcsEnv) (bucket : List String)
    (source_blob_name destination_blob_name : String) :
    List String × List GcsOp × Bool :=
  if env.copyOk source_blob_name then
    let bucket1 := bucket.insert destination_blob_name
    if env.deleteOk source_blob_name then
      (bucket1.filter (fun b => !(b = source_blob_name : Bool)),
       [.copyBlob source_blob_name destination_blob_name true,
        .deleteBlob source_blob_name true], true)
    else
      (bucket1,
       [.copyBlob source_blob_name destination_blob_name true,
        .deleteBlob source_blob_name false], false)
  else
    (bucket, [.copyBlob source_blob_name destination_blob_name false], false)

/-- Embeds `delete_file_from_gcs` (load_partitions_to_pg.py, lines
75-96): `blob.delete`, any exception caught and converted to `False`. -/
def delete_file_from_gcs (env : GcsEnv) (bucket : List String)
    (blob_name : String) : List String × List GcsOp × Bool :=
  if env.deleteOk blob_name then
    (bucket.filter (fun b => !(b = blob_name : Bool)),
     [.deleteBlob blob_name true], true)
  else
    (bucket, [.deleteBlob blob_name false], false)

/-- Embeds `get_gcs_files_in_processing_zone` (load_partitions_to_pg.py,
lines 18-41): list the blobs under prefix `processing_zone/`, keep those
ending in `.csv` and starting with `processing_zone/`, and strip the
prefix with `blob.name.replace('processing_zone/', '')`. -/
def get_gcs_files_in_processing_zone (bucket : List String) : List String :=
  (bucket.filter
      (fun b => pyEndswith b ".csv" && pyStartswith b "processing_zone/")).map
    (fun b => pyReplaceDel b "processing_zone/")

/-- The per-file loop body of `load_all_partitions_to_postgresql`
(load_partitions_to_pg.py, lines 198-233), iterated over the listed
files.  Each file: derive the table name, attempt the load (outcome from
the oracle; `load_partition_to_postgresql` itself is modelled separately
below), then finalize — on load success delete the staged blob, and
the file is reported successful only when that delete also succeeds;
on load failure move the blob to `unprocess_zone/`, and the file is
reported failed only when the move reports success.  Returns
(final bucket, successful_files, failed_files, API trace). -/
def loadLoop (env : GcsEnv) :
    List String → List String → List String × List String × List String × List GcsOp
  | [], bucket => (bucket, [], [], [])
  | file_name :: rest, bucket =>
      -- table_name := extract_table_name_from_filename file_name is
      -- passed to the load call; the load's outcome is env.loadOk.
      if env.loadOk file_name then
        let d := delete_file_from_gcs env bucket (pzName file_name)
        let r := loadLoop env rest d.1
        if d.2.2 then
          (r.1, file_name :: r.2.1, r.2.2.1,
           .loadAttempt file_name true :: d.2.1 ++ r.2.2.2)
        else
          (r.1, r.2.1, file_name :: r.2.2.1,
           .loadAttempt file_name true :: d.2.1 ++ r.2.2.2)
      else
        let m := move_file_in_gcs env bucket (pzName file_name) (uzName file_name)
        let r := loadLoop env rest m.1
        if m.2.2 then
          (r.1, r.2.1, file_name :: r.2.2.1,
           .loadAttempt file_name false :: m.2.1 ++ r.2.2.2)
        else
          (r.1, r.2.1, r.2.2.1,
           .loadAttempt file_name false :: m.2.1 ++ r.2.2.2)

/-- Embeds `load_all_partitions_to_postgresql` (load_partitions_to_pg.py,
lines 167-244): list the processing zone, then run the per-file loop.
(The source's early return on an empty listing coincides with running
the loop on the empty list.)  Returns (final bucket, successful_files,
failed_files, API trace). -/
def load_all_partitions_to_postgresql (env : GcsEnv) (bucket : List String) :
    List String × List String × List String × List GcsOp :=
  let gcs_files := get_gcs_files_in_processing_zone bucket
  loadLoop env gcs_files bucket

/-- The staged-file names whose load was attempted, read off a trace. -/
def loadAttempts (tr : List GcsOp) : List String :=
  tr.filterMap (fun op =>
    match op with
    | .loadAttempt f _ => some f
    | _ => none)

/-! ### Concrete oracle environments used by counterexamples and witnesses -/

/-- Every load succeeds; every GCS delete throws; copies succeed. -/
def envDeleteFails : GcsEnv :=
  { loadOk := fun _ => true, deleteOk := fun _ => false, copyOk := fun _ => true }

/-- Every load fails; the copy step of every move throws. -/
def envMoveCopyFails : GcsEnv :=
  { loadOk := fun _ => false, deleteOk := fun _ => true, copyOk := fun _ => false }

/-- Every load fails; every GCS operation succeeds. -/
def envLoadFails : GcsEnv :=
  { loadOk := fun _ => false, deleteOk := fun _ => true, copyOk := fun _ => true }

/-- Every operation succeeds. -/
def envAllOk : GcsEnv :=
  { loadOk := fun _ => true, deleteOk := fun _ => true, copyOk := fun _ => true }

/-- A bucket holding one staged file. -/
def demoBucket : List String := ["processing_zone/events_20240114.csv"]

/-! ### DataFrame and CSV model

A pandas DataFrame is modelled as a header (column names) plus rows of
cells, cells kept as strings.  `to_csv(index=False)` and `read_csv` are
modelled for plain fields (no separator, quote or newline characters
inside a field — the regime in which pandas writes fields verbatim):
serialization joins cells with `,` and lines with `\n`, ending with a
final newline; parsing splits lines, drops the trailing empty line,
takes the first line as the header and keeps cells as strings.
-/

structure DataFrame where
  columns : List String
  rows : List (List String)
deriving DecidableEq, Repr

/-- One CSV line: cells joined by commas. -/
def csvLine (cells : List String) : List Char :=
  joinWith [','] (cells.map String.data)

/-- Models `df.to_csv(index=False)`. -/
def to_csv (df : DataFrame) : String :=
  ⟨joinWith ['\n'] (csvLine df.columns :: df.rows.map csvLine) ++ ['\n']⟩

/-- Models `pd.read_csv` on an in-memory buffer. -/
def read_csv (content : String) : DataFrame :=
  let ls := pySplit '\n' content.data
  let lines := if ls.getLast? = some [] then ls.dropLast else ls
  match lines with
  | [] => ⟨[], []⟩
  | header :: dataRows =>
      ⟨(pySplit ',' header).map (fun w => (⟨w⟩ : String)),
       dataRows.map (fun r => (pySplit ',' r).map (fun w => (⟨w⟩ : String)))⟩

/-- The parameters of the single `df.to_sql` call issued by the loader. -/
structure SqlWrite where
  name : String
  schema : String
  chunksize : Nat
  index : Bool
  if_exists : String
  columns : List String
  rows : List (List String)
deriving DecidableEq, Repr

/-- Embeds the success path of `load_partition_to_postgresql`
(load_partitions_to_pg.py, lines 119-164): download the blob (its
content is the argument), parse it as CSV, lowercase every column name,
and call `df.to_sql` with schema `public`, chunksize 5000, no index
column, and `if_exists='replace'` exactly for the hard-coded table
`partitioned_table3`, `'append'` otherwise.  Failures of the download,
parse or write are caught by the source and surface as the boolean
outcome abstracted by `GcsEnv.loadOk` in the loop model. -/
def load_partition_to_postgresql (fileContent : String) (table_name : String) :
    SqlWrite :=
  let df := read_csv fileContent
  let cols := df.columns.map pyLower
  let ie := if table_name = "partitioned_table3" then "replace" else "append"
  { name := table_name, schema := "public", chunksize := 5000, index := false,
    if_exists := ie, columns := cols, rows := df.rows }

/-! ### BigQuery-side model: partition check and export

BigQuery queries either raise (caught at the call site) or return a
result; `BqResult` records which.  The catalog query of
`check_for_yesterdays_partition` returns a row count and the
`max_partition_id` field of the first row (an SQL `MAX`, hence possibly
NULL); the export's filter query returns a DataFrame.
-/

inductive BqResult (α : Type) where
  | err : BqResult α
  | ok : α → BqResult α
deriving DecidableEq, Repr

/-- Result of the `INFORMATION_SCHEMA.PARTITIONS` aggregate query. -/
structure PartitionsQueryResult where
  total_rows : Nat
  max_partition_id : Option String
deriving DecidableEq, Repr

/-- Embeds `check_for_yesterdays_partition`
(export_bq_partitions_to_gcs.py, lines 56-92): compute
`yesterday.replace('-', '')`, read the max partition id from the first
row when the result has rows, return it only when it equals the
dashless date key; any query error is caught and yields `None`. -/
def check_for_yesterdays_partition (queryResult : BqResult PartitionsQueryResult)
    (yesterday : String) : Option String :=
  let new_partition := dashless yesterday
  match queryResult with
  | .err => none
  | .ok res =>
      let partition_id := if res.total_rows > 0 then res.max_partition_id else none
      match partition_id with
      | some p => if p = new_partition then some p else none
      | none => none

/-- Embeds `export_partition_to_csv` (export_bq_partitions_to_gcs.py,
lines 136-188): run the partition filter query; an empty result set
returns `False` with no upload; otherwise serialize the DataFrame and
upload it at `processing_zone/{table}_{partition_id}.csv`; any query or
upload error is caught and yields `False`.  Returns (returned boolean,
the completed upload as blob name and content, if any). -/
def export_partition_to_csv (queryResult : BqResult DataFrame) (uploadOk : Bool)
    (table partition_id : String) : Bool × Option (String × String) :=
  let blob_name := "processing_zone/" ++ table ++ "_" ++ partition_id ++ ".csv"
  match queryResult with
  | .err => (false, none)
  | .ok df =>
      if df.rows.isEmpty then (false, none)
      else if uploadOk then (true, some (blob_name, to_csv df))
      else (false, none)

/-- A catalog response with one row whose max partition id is
`20240114`. -/
def demoCatalogHit : PartitionsQueryResult := ⟨1, some "20240114"⟩

/-! ### Export run model

Oracle environment for the export script: the wall clock is a stream of
readings consumed by successive `get_yesterday_date()` calls
(export_bq_partitions_to_gcs.py, lines 95-98); the catalog, the
partitioning-field lookup, the partition filter query and the upload
outcome are per-table oracles.
-/

structure ExportEnv where
  clock : Nat → String
  tables : List String
  catalog : String → BqResult PartitionsQueryResult
  partitioningField : String → Option String
  partitionQuery : String → String → BqResult DataFrame
  uploadOk : String → Bool

/-- The per-table loop of `export_all_new_partitions_to_gcs`
(export_bq_partitions_to_gcs.py, lines 225-253): for each partitioned
table, re-check yesterday's partition; when present, resolve the
partitioning field (failure routes the table to the failed list), then
export; collect exported tables, failed tables, and the completed
uploads. -/
def exportLoop (env : ExportEnv) (yesterday partition_id : String) :
    List String → List String × List String × List (String × String)
  | [] => ([], [], [])
  | table :: rest =>
      let r := exportLoop env yesterday partition_id rest
      match check_for_yesterdays_partition (env.catalog table) yesterday with
      | some _ =>
          match env.partitioningField table with
          | some _field =>
              let e := export_partition_to_csv (env.partitionQuery table yesterday)
                         (env.uploadOk table) table partition_id
              if e.1 then
                (table :: r.1, r.2.1,
                 match e.2 with
                 | some w => w :: r.2.2
                 | none => r.2.2)
              else (r.1, table :: r.2.1, r.2.2)
          | none => (r.1, table :: r.2.1, r.2.2)
      | none => r

/-- Embeds `export_all_new_partitions_to_gcs`
(export_bq_partitions_to_gcs.py, lines 191-259): reads the wall clock
itself (line 212, `yesterday = get_yesterday_date()`), derives the
partition id by stripping dashes (line 213), and runs the per-table
loop.  Returns (exported tables, completed uploads, number of clock
readings consumed — always one). -/
def export_all_new_partitions_to_gcs (env : ExportEnv) (clockIdx : Nat) :
    List String × List (String × String) × Nat :=
  let yesterday := env.clock clockIdx
  let partition_id := dashless yesterday
  let r := exportLoop env yesterday partition_id env.tables
  (r.1, r.2.2, 1)

/-- Result of one run of the export script's `main`. -/
structure ExportRunResult where
  exported : List String
  writes : List (String × String)
  clockCalls : Nat
deriving DecidableEq, Repr

/-- Embeds `main` of export_bq_partitions_to_gcs.py (lines 262-304): it
reads the clock once (line 279), gates on whether any table has
yesterday's partition, and if so calls
`export_all_new_partitions_to_gcs`, which performs its own, second
clock reading; `clockCalls` counts the `get_yesterday_date()` calls the
run performs. -/
def export_script_main (env : ExportEnv) : ExportRunResult :=
  let yesterday := env.clock 0
  let tablesWith := env.tables.filter
    (fun t => (check_for_yesterdays_partition (env.catalog t) yesterday).isSome)
  if tablesWith.isEmpty then
    { exported := [], writes := [], clockCalls := 1 }
  else
    let r := export_all_new_partitions_to_gcs env 1
    { exported := r.1, writes := r.2.1, clockCalls := 1 + r.2.2 }

/-- An export environment whose first two clock readings straddle
midnight: the gating phase sees 2024-01-14, the export phase
2024-01-15.  The catalog has yesterday's (2024-01-14) partition. -/
def env8TwoReadings : ExportEnv :=
  { clock := fun n => if n = 0 then "2024-01-14" else "2024-01-15",
    tables := ["events"],
    catalog := fun _ => BqResult.ok demoCatalogHit,
    partitioningField := fun _ => some "event_date",
    partitionQuery := fun _ _ => BqResult.ok ⟨["id"], [["1"]]⟩,
    uploadOk := fun _ => true }

/-- The same environment with a constant clock (both readings on
2024-01-14). -/
def env8OneReading : ExportEnv :=
  { env8TwoReadings with clock := fun _ => "2024-01-14" }

/-! ### Orchestrator (main.py) -/

/-- Embeds `main` of main.py (lines 15-40): run the export script's
main; if it returned an empty list, stop ("No partitions to export") —
the load step is not invoked (`none`); otherwise run
`load_all_partitions_to_postgresql` over whatever is in the bucket at
that moment (the loader re-lists the processing zone; it receives no
file names from the export step).  Returns the loader's
(successful_files, failed_files, API trace) when the load step ran. -/
def pipeline_main (exportEnv : ExportEnv) (gcsEnv : GcsEnv)
    (bucket : List String) :
    Option (List String × List String × List GcsOp) :=
  let exported_tables := (export_script_main exportEnv).exported
  if exported_tables.isEmpty then none
  else
    let r := load_all_partitions_to_postgresql gcsEnv bucket
    some (r.2.1, r.2.2.1, r.2.2.2)

/-- When the separator does not occur, Python `split` returns the whole
string as the single segment. -/
theorem pySplit_single (sep : Char) (l : List Char) (h : sep ∉ l) :
    pySplit sep l = [l] := by
  induction l with
  | nil => rfl
  | cons c cs ih =>
      have hc : c ≠ sep := fun hce => h (hce ▸ List.mem_cons_self c cs)
      have hcs : sep ∉ cs := fun hm => h (List.mem_cons_of_mem c hm)
      simp [pySplit, ih hcs, hc]

theorem pzName_inj {f g : String} (h : pzName f = pzName g) : f = g := by
  have hd := congrArg String.data h
  rw [pzName, pzName, String.data_append, String.data_append] at hd
  exact String.ext (List.append_cancel_left hd)

theorem uzName_inj {f g : String} (h : uzName f = uzName g) : f = g := by
  have hd := congrArg String.data h
  rw [uzName, uzName, String.data_append, String.data_append] at hd
  exact String.ext (List.append_cancel_left hd)

theorem pzName_ne_uzName (f g : String) : pzName f ≠ uzName g := by
  intro h
  have h1 : (pzName f).data.head? = some 'p' := by
    rw [pzName, String.data_append]; rfl
  have h2 : (uzName g).data.head? = some 'u' := by
    rw [uzName, String.data_append]; rfl
  rw [h, h2] at h1
  simp at h1

/-- The loop attempts to load exactly the files it is given, in order. -/
theorem loadLoop_attempts (env : GcsEnv) (files : List String) :
    ∀ bucket, loadAttempts (loadLoop env files bucket).2.2.2 = files := by
  induction files with
  | nil => intro bucket; simp [loadLoop, loadAttempts]
  | cons g fs ih =>
      intro bucket
      by_cases hL : env.loadOk g = true
      · by_cases hD : env.deleteOk (pzName g) = true
        · simp [loadLoop, loadAttempts, delete_file_from_gcs, hL, hD,
            List.filterMap_append]
          exact ih _
        · simp [loadLoop, loadAttempts, delete_file_from_gcs, hL, hD,
            List.filterMap_append]
          exact ih _
      · by_cases hC : env.copyOk (pzName g) = true
        · by_cases hD : env.deleteOk (pzName g) = true
          · simp [loadLoop, loadAttempts, move_file_in_gcs, hL, hC, hD,
              List.filterMap_append]
            exact ih _
          · simp [loadLoop, loadAttempts, move_file_in_gcs, hL, hC, hD,
              List.filterMap_append]
            exact ih _
        · simp [loadLoop, loadAttempts, move_file_in_gcs, hL, hC,
            List.filterMap_append]
          exact ih _

/-- A file the loop never processes appears in neither result list. -/
theorem loadLoop_mem_lists (env : GcsEnv) (f : String) (files : List String) :
    ∀ (bucket : List String), f ∉ files →
      f ∉ (loadLoop env files bucket).2.1 ∧
      f ∉ (loadLoop env files bucket).2.2.1 := by
  induction files with
  | nil => intro bucket _; simp [loadLoop]
  | cons g fs ih =>
      intro bucket hf
      have hfg : f ≠ g := fun h => hf (h ▸ List.mem_cons_self g fs)
      have hffs : f ∉ fs := fun h => hf (List.mem_cons_of_mem g h)
      by_cases hL : env.loadOk g = true
      · by_cases hD : env.deleteOk (pzName g) = true
        · simpa [loadLoop, delete_file_from_gcs, hL, hD, hfg] using ih _ hffs
        · simpa [loadLoop, delete_file_from_gcs, hL, hD, hfg] using ih _ hffs
      · by_cases hC : env.copyOk (pzName g) = true
        · by_cases hD : env.deleteOk (pzName g) = true
          · simpa [loadLoop, move_file_in_gcs, hL, hC, hD, hfg] using ih _ hffs
          · simpa [loadLoop, move_file_in_gcs, hL, hC, hD, hfg] using ih _ hffs
        · simpa [loadLoop, move_file_in_gcs, hL, hC, hfg] using ih _ hffs

/-- A blob name no processed file can touch keeps its bucket membership
through the loop. -/
theorem loadLoop_bucket_frame (env : GcsEnv) (b : String) (files : List String) :
    ∀ (bucket : List String),
      (∀ g ∈ files, b ≠ pzName g ∧ b ≠ uzName g) →
      (b ∈ (loadLoop env files bucket).1 ↔ b ∈ bucket) := by
  induction files with
  | nil => intro bucket _; simp [loadLoop]
  | cons g fs ih =>
      intro bucket hb
      have hbg := hb g (List.mem_cons_self g fs)
      have hbfs : ∀ x ∈ fs, b ≠ pzName x ∧ b ≠ uzName x :=
        fun x hx => hb x (List.mem_cons_of_mem g hx)
      by_cases hL : env.loadOk g = true
      · by_cases hD : env.deleteOk (pzName g) = true
        · rw [show (loadLoop env (g :: fs) bucket).1 =
              (loadLoop env fs
                (bucket.filter (fun x => !(x = pzName g : Bool)))).1 by
              simp [loadLoop, delete_file_from_gcs, hL, hD]]
          rw [ih _ hbfs]
          simp [List.mem_filter, hbg.1]
        · rw [show (loadLoop env (g :: fs) bucket).1 =
              (loadLoop env fs bucket).1 by
              simp [loadLoop, delete_file_from_gcs, hL, hD]]
          exact ih _ hbfs
      · by_cases hC : env.copyOk (pzName g) = true
        · by_cases hD : env.deleteOk (pzName g) = true
          · rw [show (loadLoop env (g :: fs) bucket).1 =
                (loadLoop env fs
                  ((bucket.insert (uzName g)).filter
                    (fun x => !(x = pzName g : Bool)))).1 by
                simp [loadLoop, move_file_in_gcs, hL, hC, hD]]
            rw [ih _ hbfs]
            simp [List.mem_filter, List.mem_insert_iff, hbg.1, hbg.2]
          · rw [show (loadLoop env (g :: fs) bucket).1 =
                (loadLoop env fs (bucket.insert (uzName g))).1 by
                simp [loadLoop, move_file_in_gcs, hL, hC, hD]]
            rw [ih _ hbfs]
            simp [List.mem_insert_iff, hbg.2]
        · rw [show (loadLoop env (g :: fs) bucket).1 =
              (loadLoop env fs bucket).1 by
              simp [loadLoop, move_file_in_gcs, hL, hC]]
          exact ih _ hbfs

/-- Complete characterization of an attempted file's fate: membership in
the successful list, the failed list, and the two zones at the end of
the loop, as a function of the oracle outcomes for that file. -/
theorem loadLoop_spec (env : GcsEnv) (f : String) (files : List String) :
    ∀ (bucket : List String), f ∈ files → files.Nodup →
      pzName f ∈ bucket → uzName f ∉ bucket →
      ((f ∈ (loadLoop env files bucket).2.1 ↔
          env.loadOk f = true ∧ env.deleteOk (pzName f) = true) ∧
       (f ∈ (loadLoop env files bucket).2.2.1 ↔
          ((env.loadOk f = true ∧ env.deleteOk (pzName f) = false) ∨
           (env.loadOk f = false ∧ env.copyOk (pzName f) = true ∧
            env.deleteOk (pzName f) = true))) ∧
       (pzName f ∈ (loadLoop env files bucket).1 ↔
          ¬(env.deleteOk (pzName f) = true ∧
            (env.loadOk f = true ∨ env.copyOk (pzName f) = true))) ∧
       (uzName f ∈ (loadLoop env files bucket).1 ↔
          (env.loadOk f = false ∧ env.copyOk (pzName f) = true))) := by
  induction files with
  | nil => intro bucket hf; exact absurd hf (List.not_mem_nil f)
  | cons g fs ih =>
      intro bucket hf hnd hpz huz
      have hgfs : g ∉ fs := (List.nodup_cons.mp hnd).1
      have hnd' : fs.Nodup := (List.nodup_cons.mp hnd).2
      rcases List.mem_cons.mp hf with hfg | hffs
      · subst hfg
        -- f is processed by the head step; the recursion over fs never
        -- touches f's blobs or list entries again.
        have hfr_pz : ∀ b1, pzName f ∈ (loadLoop env fs b1).1 ↔ pzName f ∈ b1 :=
          fun b1 => loadLoop_bucket_frame env (pzName f) fs b1
            (fun x hx => ⟨fun he => hgfs (pzName_inj he ▸ hx),
                          pzName_ne_uzName f x⟩)
        have hfr_uz : ∀ b1, uzName f ∈ (loadLoop env fs b1).1 ↔ uzName f ∈ b1 :=
          fun b1 => loadLoop_bucket_frame env (uzName f) fs b1
            (fun x hx => ⟨fun he => pzName_ne_uzName x f he.symm,
                          fun he => hgfs (uzName_inj he ▸ hx)⟩)
        have hl1 : ∀ b1, f ∉ (loadLoop env fs b1).2.1 :=
          fun b1 => (loadLoop_mem_lists env f fs b1 hgfs).1
        have hl2 : ∀ b1, f ∉ (loadLoop env fs b1).2.2.1 :=
          fun b1 => (loadLoop_mem_lists env f fs b1 hgfs).2
        have huzpz : ∀ a b : String, uzName a ≠ pzName b :=
          fun a b he => pzName_ne_uzName b a he.symm
        by_cases hL : env.loadOk f = true
        · by_cases hD : env.deleteOk (pzName f) = true
          · simp [loadLoop, delete_file_from_gcs, hL, hD, hfr_pz, hfr_uz,
              hl1, hl2, List.mem_filter, huz]
          · simp [loadLoop, delete_file_from_gcs, hL, hD, hfr_pz, hfr_uz,
              hl1, hl2, hpz, huz]
        · by_cases hC : env.copyOk (pzName f) = true
          · by_cases hD : env.deleteOk (pzName f) = true
            · simp [loadLoop, move_file_in_gcs, hL, hC, hD, hfr_pz, hfr_uz,
                hl1, hl2, List.mem_filter, List.mem_insert_iff, huz,
                pzName_ne_uzName, huzpz]
            · simp [loadLoop, move_file_in_gcs, hL, hC, hD, hfr_pz, hfr_uz,
                hl1, hl2, List.mem_insert_iff, hpz, huz, pzName_ne_uzName]
          · simp [loadLoop, move_file_in_gcs, hL, hC, hfr_pz, hfr_uz,
              hl1, hl2, hpz, huz]
      · have hfg : f ≠ g := fun h => hgfs (h ▸ hffs)
        have hpzg : pzName f ≠ pzName g := fun he => hfg (pzName_inj he)
        have hpzu : pzName f ≠ uzName g := pzName_ne_uzName f g
        have huzp : uzName f ≠ pzName g := fun he => pzName_ne_uzName g f he.symm
        have huzg : uzName f ≠ uzName g := fun he => hfg (uzName_inj he)
        by_cases hL : env.loadOk g = true
        · by_cases hD : env.deleteOk (pzName g) = true
          · have hpz1 : pzName f ∈ bucket.filter (fun x => !(x = pzName g : Bool)) :=
              List.mem_filter.mpr ⟨hpz, by simpa using hpzg⟩
            have huz1 : uzName f ∉ bucket.filter (fun x => !(x = pzName g : Bool)) :=
              fun hm => huz (List.mem_filter.mp hm).1
            simpa [loadLoop, delete_file_from_gcs, hL, hD, hfg]
              using ih _ hffs hnd' hpz1 huz1
          · simpa [loadLoop, delete_file_from_gcs, hL, hD, hfg]
              using ih _ hffs hnd' hpz huz
        · by_cases hC : env.copyOk (pzName g) = true
          · by_cases hD : env.deleteOk (pzName g) = true
            · have hpz1 : pzName f ∈
                  (bucket.insert (uzName g)).filter (fun x => !(x = pzName g : Bool)) :=
                List.mem_filter.mpr
                  ⟨List.mem_insert_iff.mpr (Or.inr hpz), by simpa using hpzg⟩
              have huz1 : uzName f ∉
                  (bucket.insert (uzName g)).filter (fun x => !(x = pzName g : Bool)) := by
                intro hm
                rcases List.mem_insert_iff.mp (List.mem_filter.mp hm).1 with he | hb
                · exact huzg he
                · exact huz hb
              simpa [loadLoop, move_file_in_gcs, hL, hC, hD, hfg]
                using ih _ hffs hnd' hpz1 huz1
            · have hpz1 : pzName f ∈ bucket.insert (uzName g) :=
                List.mem_insert_iff.mpr (Or.inr hpz)
              have huz1 : uzName f ∉ bucket.insert (uzName g) := by
                intro hm
                rcases List.mem_insert_iff.mp hm with he | hb
                · exact huzg he
                · exact huz hb
              simpa [loadLoop, move_file_in_gcs, hL, hC, hD, hfg]
                using ih _ hffs hnd' hpz1 huz1
          · simpa [loadLoop, move_file_in_gcs, hL, hC, hfg]
              using ih _ hffs hnd' hpz huz

/-- Membership in the two result lists depends only on the oracle
outcomes for the file, not on the bucket contents. -/
theorem loadLoop_lists_spec (env : GcsEnv) (f : String) (files : List String) :
    ∀ (bucket : List String), f ∈ files → files.Nodup →
      ((f ∈ (loadLoop env files bucket).2.1 ↔
          env.loadOk f = true ∧ env.deleteOk (pzName f) = true) ∧
       (f ∈ (loadLoop env files bucket).2.2.1 ↔
          ((env.loadOk f = true ∧ env.deleteOk (pzName f) = false) ∨
           (env.loadOk f = false ∧ env.copyOk (pzName f) = true ∧
            env.deleteOk (pzName f) = true)))) := by
  induction files with
  | nil => intro bucket hf; exact absurd hf (List.not_mem_nil f)
  | cons g fs ih =>
      intro bucket hf hnd
      have hgfs : g ∉ fs := (List.nodup_cons.mp hnd).1
      have hnd' : fs.Nodup := (List.nodup_cons.mp hnd).2
      rcases List.mem_cons.mp hf with hfg | hffs
      · subst hfg
        have hl1 : ∀ b1, f ∉ (loadLoop env fs b1).2.1 :=
          fun b1 => (loadLoop_mem_lists env f fs b1 hgfs).1
        have hl2 : ∀ b1, f ∉ (loadLoop env fs b1).2.2.1 :=
          fun b1 => (loadLoop_mem_lists env f fs b1 hgfs).2
        by_cases hL : env.loadOk f = true
        · by_cases hD : env.deleteOk (pzName f) = true
          · simp [loadLoop, delete_file_from_gcs, hL, hD, hl1, hl2]
          · simp [loadLoop, delete_file_from_gcs, hL, hD, hl1, hl2]
        · by_cases hC : env.copyOk (pzName f) = true
          · by_cases hD : env.deleteOk (pzName f) = true
            · simp [loadLoop, move_file_in_gcs, hL, hC, hD, hl1, hl2]
            · simp [loadLoop, move_file_in_gcs, hL, hC, hD, hl1, hl2]
          · simp [loadLoop, move_file_in_gcs, hL, hC, hl1, hl2]
      · have hfg : f ≠ g := fun h => hgfs (h ▸ hffs)
        by_cases hL : env.loadOk g = true
        · by_cases hD : env.deleteOk (pzName g) = true
          · simpa [loadLoop, delete_file_from_gcs, hL, hD, hfg]
              using ih _ hffs hnd'
          · simpa [loadLoop, delete_file_from_gcs, hL, hD, hfg]
              using ih _ hffs hnd'
        · by_cases hC : env.copyOk (pzName g) = true
          · by_cases hD : env.deleteOk (pzName g) = true
            · simpa [loadLoop, move_file_in_gcs, hL, hC, hD, hfg]
                using ih _ hffs hnd'
            · simpa [loadLoop, move_file_in_gcs, hL, hC, hD, hfg]
                using ih _ hffs hnd'
          · simpa [loadLoop, move_file_in_gcs, hL, hC, hfg]
              using ih _ hffs hnd'

/-! ### Claims C1, C2, C9 -/

/-- C1 (amended): for every staged file attempted by a load pass of
`load_all_partitions_to_postgresql`, provided the finalize storage
operations for that file succeed (the success-path delete, and the copy
and delete of the failure-path move), the file ends the run in exactly
one terminal state: its object is gone from the processing zone, and it
is present in the failed zone exactly when its load failed — never left
in the processing zone, never in both zones. -/
theorem C1_terminal_zone_when_finalize_succeeds
    (env : GcsEnv) (bucket : List String) (f : String)
    (hf : f ∈ get_gcs_files_in_processing_zone bucket)
    (hnd : (get_gcs_files_in_processing_zone bucket).Nodup)
    (hpz : pzName f ∈ bucket) (huz : uzName f ∉ bucket)
    (hdel : env.deleteOk (pzName f) = true)
    (hcopy : env.copyOk (pzName f) = true) :
    pzName f ∉ (load_all_partitions_to_postgresql env bucket).1 ∧
    (uzName f ∈ (load_all_partitions_to_postgresql env bucket).1 ↔
      env.loadOk f = false) := by
  have h := loadLoop_spec env f (get_gcs_files_in_processing_zone bucket)
    bucket hf hnd hpz huz
  constructor
  · intro hm
    have := h.2.2.1.mp hm
    rcases Bool.eq_false_or_eq_true (env.loadOk f) with hl | hl
    · exact this ⟨hdel, Or.inl hl⟩
    · exact this ⟨hdel, Or.inr hcopy⟩
  · rw [show load_all_partitions_to_postgresql env bucket =
        loadLoop env (get_gcs_files_in_processing_zone bucket) bucket from rfl,
      h.2.2.2]
    simp [hcopy]

/-- Witness for C1: a concrete run (one staged file, load fails, move
succeeds) in which the theorem's hypotheses hold and the file ends up
exactly in the failed zone. -/
theorem C1_terminal_zone_when_finalize_succeeds_witness :
    pzName "events_20240114.csv" ∉
      (load_all_partitions_to_postgresql envLoadFails demoBucket).1 ∧
    (uzName "events_20240114.csv" ∈
      (load_all_partitions_to_postgresql envLoadFails demoBucket).1 ↔
      envLoadFails.loadOk "events_20240114.csv" = false) :=
  C1_terminal_zone_when_finalize_succeeds envLoadFails demoBucket
    "events_20240114.csv" (by decide) (by decide) (by decide) (by decide)
    (by decide) (by decide)

/-- Counterexample to C1 as stated: a staged file whose load succeeds
but whose delete throws is attempted by the run, yet its object is still
in the processing zone afterwards — the run leaves it in no terminal
zone. -/
theorem C1_cex_delete_failure_leaves_file_in_processing_zone :
    "events_20240114.csv" ∈
      loadAttempts (load_all_partitions_to_postgresql envDeleteFails demoBucket).2.2.2 ∧
    pzName "events_20240114.csv" ∈
      (load_all_partitions_to_postgresql envDeleteFails demoBucket).1 ∧
    uzName "events_20240114.csv" ∉
      (load_all_partitions_to_postgresql envDeleteFails demoBucket).1 := by
  decide

/-- C2 (amended): for every file name returned by the processing-zone
listing at the start of the load pass, the two result lists of
`load_all_partitions_to_postgresql` are disjoint; the file is in the
successful list exactly when its load and its delete both succeeded, and
in the failed list exactly when the load succeeded but the delete failed
(so a successful load whose delete fails still surfaces as a failure),
or the load failed and the move to the failed zone fully succeeded.  A
file whose load failed and whose move also failed appears in neither
list. -/
theorem C2_result_lists_characterization
    (env : GcsEnv) (bucket : List String) (f : String)
    (hf : f ∈ get_gcs_files_in_processing_zone bucket)
    (hnd : (get_gcs_files_in_processing_zone bucket).Nodup) :
    ¬(f ∈ (load_all_partitions_to_postgresql env bucket).2.1 ∧
      f ∈ (load_all_partitions_to_postgresql env bucket).2.2.1) ∧
    (f ∈ (load_all_partitions_to_postgresql env bucket).2.1 ↔
      env.loadOk f = true ∧ env.deleteOk (pzName f) = true) ∧
    (f ∈ (load_all_partitions_to_postgresql env bucket).2.2.1 ↔
      ((env.loadOk f = true ∧ env.deleteOk (pzName f) = false) ∨
       (env.loadOk f = false ∧ env.copyOk (pzName f) = true ∧
        env.deleteOk (pzName f) = true))) := by
  have h := loadLoop_lists_spec env f (get_gcs_files_in_processing_zone bucket)
    bucket hf hnd
  refine ⟨?_, h.1, h.2⟩
  rintro ⟨hs, hfl⟩
  have h1 := h.1.mp hs
  rcases h.2.mp hfl with ⟨_, h2⟩ | ⟨h2, _⟩
  · rw [h1.2] at h2; cases h2
  · rw [h1.1] at h2; cases h2

/-- Witness for C2: a concrete run (one staged file, everything
succeeds) in which the characterization holds. -/
theorem C2_result_lists_characterization_witness :
    ¬("events_20240114.csv" ∈ (load_all_partitions_to_postgresql envAllOk demoBucket).2.1 ∧
      "events_20240114.csv" ∈ (load_all_partitions_to_postgresql envAllOk demoBucket).2.2.1) ∧
    ("events_20240114.csv" ∈ (load_all_partitions_to_postgresql envAllOk demoBucket).2.1 ↔
      envAllOk.loadOk "events_20240114.csv" = true ∧
      envAllOk.deleteOk (pzName "events_20240114.csv") = true) ∧
    ("events_20240114.csv" ∈ (load_all_partitions_to_postgresql envAllOk demoBucket).2.2.1 ↔
      ((envAllOk.loadOk "events_20240114.csv" = true ∧
        envAllOk.deleteOk (pzName "events_20240114.csv") = false) ∨
       (envAllOk.loadOk "events_20240114.csv" = false ∧
        envAllOk.copyOk (pzName "events_20240114.csv") = true ∧
        envAllOk.deleteOk (pzName "events_20240114.csv") = true))) :=
  C2_result_lists_characterization envAllOk demoBucket "events_20240114.csv"
    (by decide) (by decide)

/-- Counterexample to C2 as stated: a file whose load failed and whose
move to the failed zone also failed is attempted by the run but reported
in neither result list — the two lists do not jointly cover every
attempted file. -/
theorem C2_cex_move_failure_reported_in_neither_list :
    "events_20240114.csv" ∈
      loadAttempts (load_all_partitions_to_postgresql envMoveCopyFails demoBucket).2.2.2 ∧
    (load_all_partitions_to_postgresql envMoveCopyFails demoBucket).2.1 = [] ∧
    (load_all_partitions_to_postgresql envMoveCopyFails demoBucket).2.2.1 = [] := by
  decide

/-- C9 (confirmed): `move_file_in_gcs` first copies the object to the
destination and only afterwards attempts to delete the original: any
delete of the source in its API trace is preceded by a successful copy
of the source to the destination. -/
theorem C9_copy_precedes_delete
    (env : GcsEnv) (bucket : List String) (src dst : String)
    (i : Nat) (b : Bool)
    (h : (move_file_in_gcs env bucket src dst).2.1.get? i =
          some (GcsOp.deleteBlob src b)) :
    ∃ j, j < i ∧ (move_file_in_gcs env bucket src dst).2.1.get? j =
          some (GcsOp.copyBlob src dst true) := by
  by_cases hC : env.copyOk src = true
  · by_cases hD : env.deleteOk src = true
    · simp only [move_file_in_gcs, hC, hD, if_pos, if_true] at h ⊢
      match i, h with
      | 1, _ => exact ⟨0, by omega, rfl⟩
    · simp only [move_file_in_gcs, hC, hD, if_true, if_false] at h ⊢
      match i, h with
      | 1, _ => exact ⟨0, by omega, rfl⟩
  · simp only [move_file_in_gcs, hC] at h ⊢
    match i, h with
    | 0, h => simp at h

/-- Witness for C9: in a concrete move whose copy and delete both
succeed, the delete at trace position 1 is preceded by the successful
copy at position 0. -/
theorem C9_copy_precedes_delete_witness :
    ∃ j, j < 1 ∧
      (move_file_in_gcs envAllOk demoBucket
        (pzName "events_20240114.csv") (uzName "events_20240114.csv")).2.1.get? j =
      some (GcsOp.copyBlob (pzName "events_20240114.csv")
        (uzName "events_20240114.csv") true) :=
  C9_copy_precedes_delete envAllOk demoBucket
    (pzName "events_20240114.csv") (uzName "events_20240114.csv") 1 true
    (by decide)

/-! ### Claims C3 and C10: table-name derivation -/

theorem pySplit_ne_nil (sep : Char) (l : List Char) : pySplit sep l ≠ [] := by
  cases l with
  | nil => simp [pySplit]
  | cons a cs =>
      simp only [pySplit]
      by_cases ha : a = sep
      · simp [ha]
      · simp only [ha, if_false]
        cases pySplit sep cs <;> simp

theorem joinWith_cons_head (sep : List Char) (a : Char) (t : List Char)
    (ts : List (List Char)) :
    joinWith sep ((a :: t) :: ts) = a :: joinWith sep (t :: ts) := by
  cases ts <;> simp [joinWith]

/-- Python `sep.join(s.split(sep)) == s`. -/
theorem joinWith_pySplit (sep : Char) (l : List Char) :
    joinWith [sep] (pySplit sep l) = l := by
  induction l with
  | nil => rfl
  | cons a cs ih =>
      by_cases ha : a = sep
      · subst ha
        rw [show pySplit a (a :: cs) = [] :: pySplit a cs by simp [pySplit]]
        rcases hr : pySplit a cs with _ | ⟨t, ts⟩
        · exact absurd hr (pySplit_ne_nil a cs)
        · rw [show joinWith [a] ([] :: t :: ts) = a :: joinWith [a] (t :: ts) by
            simp [joinWith]]
          rw [← hr, ih]
      · rcases hr : pySplit sep cs with _ | ⟨t, ts⟩
        · exact absurd hr (pySplit_ne_nil sep cs)
        · rw [show pySplit sep (a :: cs) = (a :: t) :: ts by
            simp only [pySplit, ha, if_false, hr]]
          rw [joinWith_cons_head, ← hr, ih]

/-- C3 (amended): the target table name is the first two
underscore-delimited tokens of the extension-stripped file name, joined
by an underscore; `user_events_20240114.csv` maps to `user_events`, and
`events_20240114.csv` (a table name with no underscore) maps to
`events_20240114` — the partition id is retained as the second token,
not stripped. -/
theorem C3_first_two_tokens_examples :
    extract_table_name_from_filename "user_events_20240114.csv" = "user_events" ∧
    extract_table_name_from_filename "events_20240114.csv" = "events_20240114" := by
  decide

/-- Counterexample to C3 as stated: `events_20240114.csv` does not map
to target `events`. -/
theorem C3_cex_no_underscore_table_keeps_date_token :
    extract_table_name_from_filename "events_20240114.csv" ≠ "events" := by
  decide

/-- C10 (confirmed): a file whose extension-stripped name has fewer than
two underscore-delimited tokens maps to that name unchanged
(`events.csv` maps to `events`); with more than two tokens everything
after the second is discarded, so two distinct source tables can derive
the same target table name. -/
theorem C10_short_names_unchanged_and_truncation_collides :
    (∀ f : String, (pySplit '_' (splitext f.data).1).length < 2 →
        extract_table_name_from_filename f = ⟨(splitext f.data).1⟩) ∧
    extract_table_name_from_filename "events.csv" = "events" ∧
    extract_table_name_from_filename "user_events_daily_20240114.csv" = "user_events" ∧
    extract_table_name_from_filename "user_events_daily_20240114.csv" =
      extract_table_name_from_filename "user_events_hourly_20240114.csv" ∧
    "user_events_daily_20240114.csv" ≠ "user_events_hourly_20240114.csv" := by
  refine ⟨?_, by decide, by decide, by decide, by decide⟩
  intro f h
  rw [extract_table_name_from_filename]
  rw [List.take_of_length_le (Nat.le_of_lt (Nat.lt_of_lt_of_le h (by omega)))]
  rw [joinWith_pySplit]

/-- Witness for C10: the short-name case instantiated at `events.csv`. -/
theorem C10_short_names_unchanged_witness :
    extract_table_name_from_filename "events.csv" =
      (⟨(splitext "events.csv".data).1⟩ : String) :=
  C10_short_names_unchanged_and_truncation_collides.1 "events.csv" (by decide)

/-! Round-trip lemmas for the CSV model. -/

theorem pySplit_append_cons (sep : Char) (x r : List Char) (h : sep ∉ x) :
    pySplit sep (x ++ sep :: r) = x :: pySplit sep r := by
  induction x with
  | nil => simp [pySplit]
  | cons a x' ih =>
      have ha : a ≠ sep := fun he => h (he ▸ List.mem_cons_self a x')
      have hx' : sep ∉ x' := fun hm => h (List.mem_cons_of_mem a hm)
      rw [List.cons_append]
      rw [show pySplit sep (a :: (x' ++ sep :: r)) =
          match pySplit sep (x' ++ sep :: r) with
          | [] => [[a]]
          | t :: ts => (a :: t) :: ts by simp [pySplit, ha]]
      rw [ih hx']

theorem pySplit_joinWith (sep : Char) (parts : List (List Char))
    (hne : parts ≠ []) (h : ∀ p ∈ parts, sep ∉ p) :
    pySplit sep (joinWith [sep] parts) = parts := by
  induction parts with
  | nil => exact absurd rfl hne
  | cons x xs ih =>
      cases xs with
      | nil =>
          simp only [joinWith]
          exact pySplit_single sep x (h x (List.mem_cons_self x []))
      | cons y ys =>
          rw [show joinWith [sep] (x :: y :: ys) =
              x ++ sep :: joinWith [sep] (y :: ys) by simp [joinWith]]
          rw [pySplit_append_cons sep x _ (h x (List.mem_cons_self x (y :: ys)))]
          rw [ih (by simp) (fun p hp => h p (List.mem_cons_of_mem x hp))]

theorem pySplit_concat_sep (sep : Char) (l : List Char) :
    pySplit sep (l ++ [sep]) = pySplit sep l ++ [[]] := by
  induction l with
  | nil => simp [pySplit]
  | cons a cs ih =>
      by_cases ha : a = sep
      · subst ha
        rw [List.cons_append]
        rw [show pySplit a ((a : Char) :: (cs ++ [a])) = [] :: pySplit a (cs ++ [a]) by
          simp [pySplit]]
        rw [ih]
        rw [show pySplit a ((a : Char) :: cs) = [] :: pySplit a cs by simp [pySplit]]
        rfl
      · rw [List.cons_append]
        rw [show pySplit sep (a :: (cs ++ [sep])) =
            match pySplit sep (cs ++ [sep]) with
            | [] => [[a]]
            | t :: ts => (a :: t) :: ts by simp [pySplit, ha]]
        rw [ih]
        rcases hr : pySplit sep cs with _ | ⟨t, ts⟩
        · exact absurd hr (pySplit_ne_nil sep cs)
        · rw [show pySplit sep (a :: cs) =
              match pySplit sep cs with
              | [] => [[a]]
              | t :: ts => (a :: t) :: ts by simp [pySplit, ha]]
          rw [hr]
          rfl

theorem not_mem_joinWith (x : Char) (sep : List Char)
    (parts : List (List Char)) (hsep : x ∉ sep) (h : ∀ p ∈ parts, x ∉ p) :
    x ∉ joinWith sep parts := by
  induction parts with
  | nil => simp [joinWith]
  | cons p ps ih =>
      cases ps with
      | nil => simpa [joinWith] using h p (List.mem_cons_self p [])
      | cons q qs =>
          rw [show joinWith sep (p :: q :: qs) = p ++ sep ++ joinWith sep (q :: qs) by
            simp [joinWith]]
          intro hm
          rcases List.mem_append.mp hm with hm1 | hm2
          · rcases List.mem_append.mp hm1 with hp | hs
            · exact h p (List.mem_cons_self p (q :: qs)) hp
            · exact hsep hs
          · exact ih (fun r hr => h r (List.mem_cons_of_mem p hr)) hm2

/-- Parsing a serialized DataFrame recovers the column names, provided
the names contain no separator or newline characters (pandas writes such
names verbatim). -/
theorem read_csv_to_csv_columns (cols : List String) (rows : List (List String))
    (hne : cols ≠ [])
    (hc : ∀ c ∈ cols, ',' ∉ c.data ∧ '\n' ∉ c.data) :
    (read_csv (to_csv ⟨cols, rows⟩)).columns = cols := by
  have hhead : '\n' ∉ csvLine cols := by
    apply not_mem_joinWith
    · decide
    · intro p hp
      rcases List.mem_map.mp hp with ⟨c, hcm, rfl⟩
      exact (hc c hcm).2
  have hsplit : pySplit '\n' ((to_csv ⟨cols, rows⟩)).data =
      pySplit '\n' (joinWith ['\n'] (csvLine cols :: rows.map csvLine)) ++ [[]] := by
    rw [show ((to_csv ⟨cols, rows⟩)).data =
        joinWith ['\n'] (csvLine cols :: rows.map csvLine) ++ ['\n'] from rfl]
    exact pySplit_concat_sep '\n' _
  have hbody : ∃ tail, pySplit '\n'
      (joinWith ['\n'] (csvLine cols :: rows.map csvLine)) =
      csvLine cols :: tail := by
    cases hrm : rows.map csvLine with
    | nil =>
        refine ⟨[], ?_⟩
        rw [show joinWith ['\n'] [csvLine cols] = csvLine cols by simp [joinWith]]
        exact pySplit_single '\n' _ hhead
    | cons r rs =>
        refine ⟨pySplit '\n' (joinWith ['\n'] (r :: rs)), ?_⟩
        rw [show joinWith ['\n'] (csvLine cols :: r :: rs) =
            csvLine cols ++ '\n' :: joinWith ['\n'] (r :: rs) by simp [joinWith]]
        exact pySplit_append_cons '\n' _ _ hhead
  rcases hbody with ⟨tail, htail⟩
  rw [read_csv]
  simp only [hsplit, htail, List.getLast?_concat, List.dropLast_concat, reduceIte]
  show (pySplit ',' (csvLine cols)).map (fun w => (⟨w⟩ : String)) = cols
  rw [show csvLine cols = joinWith [','] (cols.map String.data) from rfl]
  rw [pySplit_joinWith ','  (cols.map String.data)
      (by simpa using hne)
      (by intro p hp
          rcases List.mem_map.mp hp with ⟨c, hcm, rfl⟩
          exact (hc c hcm).1)]
  rw [List.map_map]
  exact List.map_id cols

/-- C4 (confirmed): the loader lowercases every parsed column name (a
file produced by the exporter round-trips into column names that are
exactly the lowercase of the exported schema's names), writes in
fixed-size batches of 5000 rows, and uses replace semantics exactly for
the hard-coded target `partitioned_table3`, append semantics for every
other target table. -/
theorem C4_lowercase_chunksize_write_policy
    (cols : List String) (rows : List (List String)) (table_name : String)
    (hne : cols ≠ [])
    (hc : ∀ c ∈ cols, ',' ∉ c.data ∧ '\n' ∉ c.data) :
    (load_partition_to_postgresql (to_csv ⟨cols, rows⟩) table_name).columns =
      cols.map pyLower ∧
    (load_partition_to_postgresql (to_csv ⟨cols, rows⟩) table_name).chunksize =
      5000 ∧
    ((load_partition_to_postgresql (to_csv ⟨cols, rows⟩) table_name).if_exists =
        "replace" ↔ table_name = "partitioned_table3") ∧
    (table_name ≠ "partitioned_table3" →
      (load_partition_to_postgresql (to_csv ⟨cols, rows⟩) table_name).if_exists =
        "append") := by
  refine ⟨?_, rfl, ?_, ?_⟩
  · rw [show (load_partition_to_postgresql (to_csv ⟨cols, rows⟩) table_name).columns =
        (read_csv (to_csv ⟨cols, rows⟩)).columns.map pyLower from rfl]
    rw [read_csv_to_csv_columns cols rows hne hc]
  · by_cases ht : table_name = "partitioned_table3" <;>
      simp [load_partition_to_postgresql, ht]
  · intro ht
    simp [load_partition_to_postgresql, ht]

/-- Witness for C4: a concrete staged file with mixed-case columns,
loaded into an ordinary table (append) — all hypotheses discharged. -/
theorem C4_lowercase_chunksize_write_policy_witness :
    (load_partition_to_postgresql
        (to_csv ⟨["Id", "EventName"], [["1", "click"]]⟩) "user_events").columns =
      ["Id", "EventName"].map pyLower ∧
    (load_partition_to_postgresql
        (to_csv ⟨["Id", "EventName"], [["1", "click"]]⟩) "user_events").chunksize =
      5000 ∧
    ((load_partition_to_postgresql
        (to_csv ⟨["Id", "EventName"], [["1", "click"]]⟩) "user_events").if_exists =
        "replace" ↔ "user_events" = "partitioned_table3") ∧
    ("user_events" ≠ "partitioned_table3" →
      (load_partition_to_postgresql
          (to_csv ⟨["Id", "EventName"], [["1", "click"]]⟩) "user_events").if_exists =
        "append") :=
  C4_lowercase_chunksize_write_policy ["Id", "EventName"] [["1", "click"]]
    "user_events" (by decide) (by decide)

/-- C6 (confirmed): `check_for_yesterdays_partition` returns a non-none
partition id exactly when the catalog query succeeded, returned rows,
and its max partition id equals yesterday's date key with dashes removed
(exact string equality); the returned id is that date key; and a query
error yields none instead of propagating. -/
theorem C6_max_partition_id_exact_match (qr : BqResult PartitionsQueryResult)
    (yesterday : String) :
    ((check_for_yesterdays_partition qr yesterday).isSome ↔
      ∃ res, qr = BqResult.ok res ∧ 0 < res.total_rows ∧
        res.max_partition_id = some (dashless yesterday)) ∧
    (∀ p, check_for_yesterdays_partition qr yesterday = some p →
      p = dashless yesterday) ∧
    (qr = BqResult.err → check_for_yesterdays_partition qr yesterday = none) := by
  rcases qr with _ | res
  · simp [check_for_yesterdays_partition]
  · by_cases hr : 0 < res.total_rows
    · rcases hm : res.max_partition_id with _ | p
      · simp [check_for_yesterdays_partition, hr, hm]
      · by_cases hp : p = dashless yesterday
        · simp [check_for_yesterdays_partition, hr, hm, hp]
        · simp [check_for_yesterdays_partition, hr, hm, hp]
    · simp [check_for_yesterdays_partition, hr]

/-- Witness for C6: a concrete successful catalog response whose max
partition id is yesterday's dashless key. -/
theorem C6_max_partition_id_exact_match_witness :
    ((check_for_yesterdays_partition (BqResult.ok demoCatalogHit)
        "2024-01-14").isSome ↔
      ∃ res, BqResult.ok demoCatalogHit = BqResult.ok res ∧
        0 < res.total_rows ∧
        res.max_partition_id = some (dashless "2024-01-14")) ∧
    (∀ p, check_for_yesterdays_partition (BqResult.ok demoCatalogHit)
        "2024-01-14" = some p → p = dashless "2024-01-14") ∧
    (BqResult.ok demoCatalogHit = BqResult.err →
      check_for_yesterdays_partition (BqResult.ok demoCatalogHit)
        "2024-01-14" = none) :=
  C6_max_partition_id_exact_match (BqResult.ok demoCatalogHit) "2024-01-14"

/-- C7 (confirmed): `export_partition_to_csv` returns true exactly when
the query succeeded with a non-empty result set and the upload
succeeded; on success the object is written at
`processing_zone/{table}_{partition_id}.csv` with the serialized result
set; on an empty result set, a query error, or an upload error it
returns false and completes no write. -/
theorem C7_export_staging_semantics (qr : BqResult DataFrame)
    (uploadOk : Bool) (table partition_id : String) :
    ((export_partition_to_csv qr uploadOk table partition_id).1 = true ↔
      (∃ df, qr = BqResult.ok df ∧ df.rows ≠ []) ∧ uploadOk = true) ∧
    ((export_partition_to_csv qr uploadOk table partition_id).1 = false →
      (export_partition_to_csv qr uploadOk table partition_id).2 = none) ∧
    (∀ df, qr = BqResult.ok df → df.rows ≠ [] → uploadOk = true →
      (export_partition_to_csv qr uploadOk table partition_id).2 =
        some ("processing_zone/" ++ table ++ "_" ++ partition_id ++ ".csv",
          to_csv df)) ∧
    (qr = BqResult.err →
      export_partition_to_csv qr uploadOk table partition_id = (false, none)) := by
  rcases qr with _ | df
  · simp [export_partition_to_csv]
  · by_cases he : df.rows.isEmpty
    · refine ⟨?_, ?_, ?_, by intro h; cases h⟩
      · simp [export_partition_to_csv, he, List.isEmpty_iff.mp he]
      · simp [export_partition_to_csv, he]
      · intro df' hdf hrows
        cases hdf
        exact absurd (List.isEmpty_iff.mp he) hrows
    · cases uploadOk
      · simp [export_partition_to_csv, he]
      · refine ⟨?_, ?_, ?_, by intro h; cases h⟩
        · simpa [export_partition_to_csv, he] using
            fun hr => absurd (List.isEmpty_iff.mpr hr) (by simpa using he)
        · simp [export_partition_to_csv, he]
        · intro df' hdf hrows _
          cases hdf
          simp [export_partition_to_csv, he]

/-- Witness for C7: a concrete non-empty result set and successful
upload, staged under the expected name. -/
theorem C7_export_staging_semantics_witness :
    ((export_partition_to_csv (BqResult.ok ⟨["id"], [["1"]]⟩) true
        "events" "20240114").1 = true ↔
      (∃ df, BqResult.ok (⟨["id"], [["1"]]⟩ : DataFrame) = BqResult.ok df ∧
        df.rows ≠ []) ∧ true = true) ∧
    ((export_partition_to_csv (BqResult.ok ⟨["id"], [["1"]]⟩) true
        "events" "20240114").1 = false →
      (export_partition_to_csv (BqResult.ok ⟨["id"], [["1"]]⟩) true
        "events" "20240114").2 = none) ∧
    (∀ df, BqResult.ok (⟨["id"], [["1"]]⟩ : DataFrame) = BqResult.ok df →
      df.rows ≠ [] → true = true →
      (export_partition_to_csv (BqResult.ok ⟨["id"], [["1"]]⟩) true
        "events" "20240114").2 =
        some ("processing_zone/" ++ "events" ++ "_" ++ "20240114" ++ ".csv",
          to_csv df)) ∧
    (BqResult.ok (⟨["id"], [["1"]]⟩ : DataFrame) = BqResult.err →
      export_partition_to_csv (BqResult.ok ⟨["id"], [["1"]]⟩) true
        "events" "20240114" = (false, none)) :=
  C7_export_staging_semantics (BqResult.ok ⟨["id"], [["1"]]⟩) true
    "events" "20240114"

/-- A successful export reports a completed upload under the
conventional staged-file name. -/
theorem export_write_blob_name (qr : BqResult DataFrame) (uploadOk : Bool)
    (table partition_id : String)
    (h : (export_partition_to_csv qr uploadOk table partition_id).1 = true) :
    ∃ content, (export_partition_to_csv qr uploadOk table partition_id).2 =
      some ("processing_zone/" ++ table ++ "_" ++ partition_id ++ ".csv",
        content) := by
  rcases qr with _ | df
  · cases h
  · by_cases he : df.rows.isEmpty
    · rw [show export_partition_to_csv (BqResult.ok df) uploadOk table
          partition_id = (false, none) by simp [export_partition_to_csv, he]] at h
      cases h
    · cases uploadOk
      · rw [show export_partition_to_csv (BqResult.ok df) false table
            partition_id = (false, none) by simp [export_partition_to_csv, he]] at h
        cases h
      · exact ⟨to_csv df, by simp [export_partition_to_csv, he]⟩

/-- Every completed upload of the export loop is for one of its tables,
is named with the loop's single partition id, and belongs to a table
whose re-checked eligibility (against the loop's single `yesterday`)
holds. -/
theorem exportLoop_writes_shape (env : ExportEnv) (yesterday partition_id : String)
    (tables : List String) :
    ∀ w ∈ (exportLoop env yesterday partition_id tables).2.2, ∃ t,
      t ∈ tables ∧
      w.1 = "processing_zone/" ++ t ++ "_" ++ partition_id ++ ".csv" ∧
      (check_for_yesterdays_partition (env.catalog t) yesterday).isSome := by
  induction tables with
  | nil => intro w hw; simp [exportLoop] at hw
  | cons table rest ih =>
      intro w hw
      rcases hchk : check_for_yesterdays_partition (env.catalog table) yesterday with
        _ | p
      · rw [show (exportLoop env yesterday partition_id (table :: rest)).2.2 =
            (exportLoop env yesterday partition_id rest).2.2 by
            simp [exportLoop, hchk]] at hw
        rcases ih w hw with ⟨t, ht, hn, he⟩
        exact ⟨t, List.mem_cons_of_mem table ht, hn, he⟩
      · rcases hfld : env.partitioningField table with _ | fld
        · rw [show (exportLoop env yesterday partition_id (table :: rest)).2.2 =
              (exportLoop env yesterday partition_id rest).2.2 by
              simp [exportLoop, hchk, hfld]] at hw
          rcases ih w hw with ⟨t, ht, hn, he⟩
          exact ⟨t, List.mem_cons_of_mem table ht, hn, he⟩
        · by_cases hsucc : (export_partition_to_csv
              (env.partitionQuery table yesterday) (env.uploadOk table)
              table partition_id).1 = true
          · rcases export_write_blob_name _ _ _ _ hsucc with ⟨content, hcontent⟩
            rw [show (exportLoop env yesterday partition_id (table :: rest)).2.2 =
                ("processing_zone/" ++ table ++ "_" ++ partition_id ++ ".csv",
                  content) ::
                  (exportLoop env yesterday partition_id rest).2.2 by
                simp [exportLoop, hchk, hfld, hsucc, hcontent]] at hw
            rcases List.mem_cons.mp hw with hweq | hwr
            · exact ⟨table, List.mem_cons_self table rest,
                by rw [hweq], by simp [hchk]⟩
            · rcases ih w hwr with ⟨t, ht, hn, he⟩
              exact ⟨t, List.mem_cons_of_mem table ht, hn, he⟩
          · rw [show (exportLoop env yesterday partition_id (table :: rest)).2.2 =
                (exportLoop env yesterday partition_id rest).2.2 by
                simp [exportLoop, hchk, hfld, hsucc]] at hw
            rcases ih w hw with ⟨t, ht, hn, he⟩
            exact ⟨t, List.mem_cons_of_mem table ht, hn, he⟩

/-- C8 (amended): the run reads the wall clock twice when any table
passes the gating check (once in the gating phase, once more inside the
export phase) — not exactly once; within the export phase every
eligibility comparison and every staged file's name derive from the
export phase's own single reading. -/
theorem C8_per_phase_clock_reading (env : ExportEnv) (clockIdx : Nat) :
    (export_all_new_partitions_to_gcs env clockIdx).2.2 = 1 ∧
    (∀ w ∈ (export_all_new_partitions_to_gcs env clockIdx).2.1, ∃ t,
      t ∈ env.tables ∧
      w.1 = "processing_zone/" ++ t ++ "_" ++ dashless (env.clock clockIdx) ++
        ".csv" ∧
      (check_for_yesterdays_partition (env.catalog t)
        (env.clock clockIdx)).isSome) ∧
    ((export_script_main env).clockCalls = 1 ∨
     (export_script_main env).clockCalls = 2) := by
  refine ⟨rfl, ?_, ?_⟩
  · exact exportLoop_writes_shape env (env.clock clockIdx)
      (dashless (env.clock clockIdx)) env.tables
  · rw [export_script_main]
    by_cases hgate : (env.tables.filter
        (fun t => (check_for_yesterdays_partition (env.catalog t)
          (env.clock 0)).isSome)).isEmpty
    · simp [hgate]
    · simp [hgate, export_all_new_partitions_to_gcs]

/-- Witness for C8: in the constant-clock environment, the single
completed upload's name carries the export phase's reading. -/
theorem C8_per_phase_clock_reading_witness :
    ∃ t, t ∈ env8OneReading.tables ∧
      ("processing_zone/events_20240114.csv",
        to_csv (⟨["id"], [["1"]]⟩ : DataFrame)).1 =
        "processing_zone/" ++ t ++ "_" ++ dashless (env8OneReading.clock 1) ++
          ".csv" ∧
      (check_for_yesterdays_partition (env8OneReading.catalog t)
        (env8OneReading.clock 1)).isSome :=
  (C8_per_phase_clock_reading env8OneReading 1).2.1
    ("processing_zone/events_20240114.csv", to_csv ⟨["id"], [["1"]]⟩)
    (by decide)

/-- Counterexample to C8 as stated: with the catalog fixed at the
2024-01-14 partition, a run whose two clock readings straddle midnight
consumes two readings, passes the gating phase on the first reading,
yet exports nothing because the export phase re-compares against the
second reading — while the same run with a constant clock exports the
table.  The run's decisions are not a function of one clock reading
taken once at run start. -/
theorem C8_cex_two_clock_readings :
    (export_script_main env8TwoReadings).clockCalls = 2 ∧
    (export_script_main env8TwoReadings).exported = [] ∧
    (export_script_main env8TwoReadings).writes = [] ∧
    (export_script_main env8OneReading).clockCalls = 2 ∧
    (export_script_main env8OneReading).exported = ["events"] := by
  decide

/-- C5 (confirmed): the orchestrator invokes the load step if and only
if the export step returned a non-empty list of exported tables, and
whenever the load step runs it attempts exactly the `.csv` files listed
under the processing-zone prefix at that moment — a function of the
bucket contents alone, so files staged by earlier runs and never
finalized are attempted too, not only the current run's exports. -/
theorem C5_load_iff_exports_attempts_all_staged (ee : ExportEnv) (ge : GcsEnv)
    (bucket : List String) :
    (pipeline_main ee ge bucket = none ↔
      (export_script_main ee).exported = []) ∧
    (∀ s fl tr, pipeline_main ee ge bucket = some (s, fl, tr) →
      loadAttempts tr = get_gcs_files_in_processing_zone bucket) := by
  by_cases h : (export_script_main ee).exported.isEmpty
  · refine ⟨by simp [pipeline_main, h, List.isEmpty_iff.mp h], ?_⟩
    intro s fl tr htr
    rw [pipeline_main] at htr
    simp [h] at htr
  · refine ⟨?_, ?_⟩
    · rw [pipeline_main]
      simp only [h, Bool.false_eq_true, if_false]
      simp
      exact fun hc => absurd (List.isEmpty_iff.mpr hc) (by simpa using h)
    · intro s fl tr htr
      rw [pipeline_main] at htr
      simp only [h, Bool.false_eq_true, if_false, Option.some.injEq] at htr
      have htr3 : tr = (load_all_partitions_to_postgresql ge bucket).2.2.2 := by
        have := congrArg (fun p => p.2.2) htr
        simpa using this.symm
      rw [htr3]
      exact loadLoop_attempts ge (get_gcs_files_in_processing_zone bucket) bucket

/-- Witness for C5: a concrete run that exported one table and then
attempted exactly the one staged file. -/
theorem C5_load_iff_exports_attempts_all_staged_witness :
    loadAttempts
      [GcsOp.loadAttempt "events_20240114.csv" true,
       GcsOp.deleteBlob "processing_zone/events_20240114.csv" true] =
      get_gcs_files_in_processing_zone demoBucket :=
  (C5_load_iff_exports_attempts_all_staged env8OneReading envAllOk demoBucket).2
    ["events_20240114.csv"] []
    [GcsOp.loadAttempt "events_20240114.csv" true,
     GcsOp.deleteBlob "processing_zone/events_20240114.csv" true]
    (by decide)

end BqToPg

